import Mathlib

/-!
Verification of `api/sync-invoices.js`, the single serverless handler of the
Pemo → Qoyod invoice-sync cron job.

Shallow embedding conventions:
* JavaScript values that the code only tests for truthiness or for
  `typeof x === 'number'` are modelled as `Option` fields: `none` stands for
  a JS-falsy / non-number value, `some v` for a truthy value `v`.
* JS numbers are modelled as `ℚ` (all amounts in the claims are exactly
  representable, and `totalAmount / 100` is exact at those inputs).
* Network effects are made explicit: the handler consumes a `World` holding
  the responses the remote systems would give, and returns both the HTTP
  response it sends and the ordered list of outbound calls it issued.
-/

namespace SyncInvoices

/-- One transaction record from the Pemo response, `txn` in the loop.
`none` in a field models a value the code would treat as absent
(JS-falsy for `date`/`id`/`merchant`, non-number for `totalAmount`). -/
structure Txn where
  id : Option String
  totalAmount : Option ℚ
  date : Option String
  merchant : Option String
deriving DecidableEq, Repr

/-- Body of a successful Pemo fetch (`pemoData`).  `transactions = none`
models a body whose `transactions` property is absent or not an array
(the code's `Array.isArray` check fails); list elements are `Option Txn`
because an element may itself be null/undefined (`!txn`). -/
structure PemoBody where
  transactions : Option (List (Option Txn))
deriving DecidableEq, Repr

/-- Result of the Pemo fetch: a non-ok HTTP response with its status,
status text and body text, or an ok response with a parsed JSON body. -/
inductive PemoResult where
  | fail (status : Nat) (statusText : String) (body : String)
  | ok (body : PemoBody)
deriving DecidableEq, Repr

/-- One line item of the Qoyod invoice payload. -/
structure LineItem where
  product_id : Option Int
  description : String
  quantity : Nat
  unit_price : ℚ
deriving DecidableEq, Repr

/-- The `invoice` object of `invoicePayload`. `Option Int` fields model
`parseInt` results, `none` being `NaN`. -/
structure Invoice where
  contact_id : Option Int
  reference : String
  description : String
  issue_date : String
  due_date : String
  status : String
  inventory_id : Option Int
  line_items : List LineItem
deriving DecidableEq, Repr

/-- The JSON body sent to the Qoyod invoices endpoint (`invoicePayload`). -/
structure InvoicePayload where
  invoice : Invoice
deriving DecidableEq, Repr

/-- An outbound network call made by the handler, in issue order. -/
inductive Call where
  | fetchPemo
  | qoyodSubmit (payload : InvoicePayload)
  | markExported (transactionIds : List String)
deriving DecidableEq, Repr

/-- Responses of the remote systems for one run: the Pemo fetch result, the
ok-ness of the k-th Qoyod submission (k counts submissions actually sent,
in order), and the ok-ness of the final mark call. -/
structure World where
  pemo : PemoResult
  qoyodOk : Nat → Bool
  markOk : Bool

/-- The HTTP response the handler sends, one constructor per `res.status(...)
.json(...)` site in the source. -/
inductive Res where
  | methodNotAllowed
  | missingEnv (error : String)
  | serverError (error : String)
  | noTransactions
  | summary (exportedCount : Nat) (exportedTransactionIds : List String)
deriving DecidableEq, Repr

/-- HTTP status code of each response site. -/
def statusOf : Res → Nat
  | .methodNotAllowed => 405
  | .missingEnv _ => 500
  | .serverError _ => 500
  | .noTransactions => 200
  | .summary _ _ => 200

/-- Process environment: `none` models a variable whose value is JS-falsy
(undefined or empty), i.e. `!process.env[key]` holds. -/
def EnvMap : Type := String → Option String

/-- The `requiredEnv` array. -/
def requiredEnv : List String :=
  ["PEMO_API_KEY", "QOYOD_API_KEY", "QOYOD_CONTACT_ID",
   "QOYOD_INVENTORY_ID", "QOYOD_PRODUCT_ID"]

/-- Digits of a numeral, most significant first, to a natural number. -/
def digitsToNat (cs : List Char) : Nat :=
  cs.foldl (fun a c => 10 * a + (c.toNat - 48)) 0

/-- `parseInt(s, 10)`: skip leading whitespace, optional sign, then the
longest digit run; `none` models `NaN` (no digits found). -/
def jsParseInt (s : String) : Option Int :=
  let cs := s.data.dropWhile (fun c => c.isWhitespace)
  let (neg, cs) :=
    match cs with
    | '-' :: rest => (true, rest)
    | '+' :: rest => (false, rest)
    | rest => (false, rest)
  let ds := cs.takeWhile (fun c => c.isDigit)
  if ds.isEmpty then none
  else some (if neg then -(digitsToNat ds : Int) else (digitsToNat ds : Int))

/-- Gregorian leap-year test. -/
def leapYear (y : Nat) : Bool :=
  y % 4 == 0 && (y % 100 != 0 || y % 400 == 0)

/-- Days in month `m` of year `y` (months 1..12). -/
def daysInMonth (y m : Nat) : Nat :=
  if m == 2 then (if leapYear y then 29 else 28)
  else if m == 4 || m == 6 || m == 9 || m == 11 then 30
  else 31

/-- Accept `HH:MM[:SS[.millis]]Z` after the `T` of an ISO timestamp. -/
def validTimeChars : List Char → Bool
  | h1 :: h2 :: ':' :: n1 :: n2 :: rest =>
    h1.isDigit && h2.isDigit && n1.isDigit && n2.isDigit &&
    digitsToNat [h1, h2] ≤ 23 && digitsToNat [n1, n2] ≤ 59 &&
    (match rest with
     | ['Z'] => true
     | ':' :: s1 :: s2 :: rest2 =>
       s1.isDigit && s2.isDigit && digitsToNat [s1, s2] ≤ 59 &&
       (match rest2 with
        | ['Z'] => true
        | '.' :: rest3 =>
          let ms := rest3.takeWhile (fun c => c.isDigit)
          !ms.isEmpty && rest3.drop ms.length == ['Z']
        | _ => false)
     | _ => false)
  | _ => false

/-- Model of `new Date(txn.date).toISOString().split('T')[0]` for UTC
ISO-8601 inputs (`YYYY-MM-DD` with an optional `T HH:MM[:SS[.millis]] Z`
time part): returns the calendar-day prefix when the string is a valid
date, `none` when the `Date` would be invalid and `toISOString` would
throw `RangeError: Invalid time value`.  Inputs outside this UTC subset
(e.g. local-time or offset timestamps) are modelled as invalid. -/
def parseJsDate (s : String) : Option String :=
  match s.data with
  | y1 :: y2 :: y3 :: y4 :: '-' :: m1 :: m2 :: '-' :: d1 :: d2 :: rest =>
    let y := digitsToNat [y1, y2, y3, y4]
    let m := digitsToNat [m1, m2]
    let d := digitsToNat [d1, d2]
    if y1.isDigit && y2.isDigit && y3.isDigit && y4.isDigit &&
       m1.isDigit && m2.isDigit && d1.isDigit && d2.isDigit &&
       1 ≤ m && m ≤ 12 && 1 ≤ d && d ≤ daysInMonth y m then
      match rest with
      | [] => some (String.mk (s.data.take 10))
      | 'T' :: timeChars =>
        if validTimeChars timeChars then some (String.mk (s.data.take 10))
        else none
      | _ => none
    else none
  | _ => none

/-- The message of the `RangeError` that `toISOString` throws on an
invalid `Date`, which the outer catch reports. -/
def invalidTimeMsg : String := "Invalid time value"

/-- The `invoicePayload` built for one valid transaction (lines 100-124),
given the already-computed `amount` and `issueDate`. -/
def buildPayload (env : EnvMap) (txn : Txn) (amount : ℚ)
    (issueDate : String) : InvoicePayload :=
  { invoice :=
    { contact_id := jsParseInt ((env "QOYOD_CONTACT_ID").getD "")
      reference := txn.id.getD ""
      description := txn.merchant.getD "Pemo Transaction"
      issue_date := issueDate
      due_date := issueDate
      status := "Approved"
      inventory_id := jsParseInt ((env "QOYOD_INVENTORY_ID").getD "")
      line_items :=
        [{ product_id := jsParseInt ((env "QOYOD_PRODUCT_ID").getD "")
           description := txn.merchant.getD "Expense"
           quantity := 1
           unit_price := amount }] } }

/-- The per-transaction loop (lines 78-150).  `k` counts Qoyod
submissions already sent.  Returns the Qoyod calls issued, and either the
final `exportedIds` or, if a date failed to parse (the thrown
`RangeError`), the error message carried to the outer catch; the calls
issued before the throw are kept. -/
def processTxns (env : EnvMap) (qoyodOk : Nat → Bool) :
    List (Option Txn) → Nat → List Call × Except String (List String)
  | [], _ => ([], .ok [])
  | item :: rest, k =>
    match item with
    | none => processTxns env qoyodOk rest k
    | some t =>
      match t.totalAmount, t.date, t.id with
      | some ta, some d, some i =>
        let amount := ta / 100
        match parseJsDate d with
        | none => ([], .error invalidTimeMsg)
        | some issueDate =>
          let payload := buildPayload env t amount issueDate
          let r := processTxns env qoyodOk rest (k + 1)
          (Call.qoyodSubmit payload :: r.1,
           match r.2 with
           | .error m => .error m
           | .ok ids => .ok (if qoyodOk k then i :: ids else ids))
      | _, _, _ => processTxns env qoyodOk rest k

/-- The whole handler (`module.exports`): request method, process
environment and remote responses in, HTTP response and ordered outbound
calls out. -/
def handler (method : String) (env : EnvMap) (w : World) :
    Res × List Call :=
  if method ≠ "GET" then (.methodNotAllowed, [])
  else
    let missing := requiredEnv.filter (fun key => (env key).isNone)
    if missing.length > 0 then
      (.missingEnv
        ("Missing required environment variables: " ++
          String.intercalate ", " missing), [])
    else
      match w.pemo with
      | .fail status statusText text =>
        (.serverError
          ("Failed to fetch Pemo transactions: " ++ toString status ++ " " ++
            statusText ++ ": " ++ text), [.fetchPemo])
      | .ok body =>
        let transactions := body.transactions.getD []
        if transactions.length = 0 then (.noTransactions, [.fetchPemo])
        else
          match processTxns env w.qoyodOk transactions 0 with
          | (calls, .error msg) =>
            (.serverError msg, .fetchPemo :: calls)
          | (calls, .ok exportedIds) =>
            if exportedIds.length > 0 then
              (.summary exportedIds.length exportedIds,
               .fetchPemo :: calls ++ [.markExported exportedIds])
            else
              (.summary exportedIds.length exportedIds, .fetchPemo :: calls)

/-- The mark-as-exported batches among a call list. -/
def markBatches (calls : List Call) : List (List String) :=
  calls.filterMap (fun c =>
    match c with
    | .markExported ids => some ids
    | _ => none)

/-- The code's skip condition (lines 80-87):
`!txn || typeof txn.totalAmount !== 'number' || !txn.date || !txn.id`. -/
def skipRecord (item : Option Txn) : Bool :=
  match item with
  | none => true
  | some t => !t.totalAmount.isSome || !t.date.isSome || !t.id.isSome

/-- Specification-side recursion, following the spec's words: the ids of
the transactions whose target submission returned a success status, in
the order the source returned them (a submission is sent for each record
that has an id, a numeric amount and a present date; the k-th one sent
succeeds iff `qoyodOk k`). -/
def successIds (qoyodOk : Nat → Bool) :
    List (Option Txn) → Nat → List String
  | [], _ => []
  | item :: rest, k =>
    match item with
    | some t =>
      match t.totalAmount, t.date, t.id with
      | some _, some _, some i =>
        if qoyodOk k then i :: successIds qoyodOk rest (k + 1)
        else successIds qoyodOk rest (k + 1)
      | _, _, _ => successIds qoyodOk rest k
    | none => successIds qoyodOk rest k

/-! ### Concrete fixtures used by witnesses -/

/-- The spec's worked example: amount 4550 minor units, dated
`2024-01-15T10:30:00Z`. -/
def sampleTxn : Txn :=
  ⟨some "txn_001", some 4550, some "2024-01-15T10:30:00Z", some "Coffee"⟩

/-- A valid transaction with id "a". -/
def txnA : Txn := ⟨some "a", some 100, some "2024-01-01", none⟩

/-- A valid transaction with id "b". -/
def txnB : Txn := ⟨some "b", some 200, some "2024-01-02", some "Shop"⟩

/-- A valid transaction with id "c". -/
def txnC : Txn := ⟨some "c", some 300, some "2024-01-03", none⟩

/-- A transaction whose fields pass the skip check but whose date string
is not a parseable date. -/
def badTxn : Txn := ⟨some "bad", some 100, some "not-a-date", none⟩

/-- An environment with every required variable set. -/
def okEnv : EnvMap := fun _ => some "7"

/-- An environment in which exactly two required variables are absent. -/
def envMissingTwo : EnvMap := fun key =>
  if key = "QOYOD_API_KEY" ∨ key = "QOYOD_PRODUCT_ID" then none
  else some "7"

/-- Qoyod responses where only the second submission (index 1) fails. -/
def failSecond : Nat → Bool := fun k => !(k == 1)

/-- A world returning three valid transactions, with only the second
Qoyod submission failing. -/
def worldABC : World :=
  { pemo := .ok { transactions := some [some txnA, some txnB, some txnC] },
    qoyodOk := failSecond, markOk := true }

/-- A world whose second transaction has an unparseable date. -/
def worldBadDate : World :=
  { pemo := .ok { transactions := some [some txnA, some badTxn, some txnC] },
    qoyodOk := fun _ => true, markOk := true }

/-! ### Helper lemmas -/

/-- The per-transaction loop issues Qoyod submissions only, never a
mark-as-exported call. -/
theorem processTxns_no_mark (env : EnvMap) (q : Nat → Bool) :
    ∀ (l : List (Option Txn)) (k : Nat),
      markBatches (processTxns env q l k).1 = [] := by
  intro l
  induction l with
  | nil => intro k; rfl
  | cons item rest ih =>
    intro k
    cases item with
    | none => simpa [processTxns] using ih k
    | some t =>
      rcases hta : t.totalAmount with _ | ta <;>
        rcases htd : t.date with _ | d <;>
        rcases hti : t.id with _ | i <;>
        simp only [processTxns, hta, htd, hti] <;>
        try exact ih k
      rcases hpd : parseJsDate d with _ | issueDate
      · rfl
      · simpa [markBatches] using ih (k + 1)

/-- When the loop completes, `exportedIds` is exactly the spec-side
success list. -/
theorem processTxns_ok_ids (env : EnvMap) (q : Nat → Bool) :
    ∀ (l : List (Option Txn)) (k : Nat) (ids : List String),
      (processTxns env q l k).2 = .ok ids → ids = successIds q l k := by
  intro l
  induction l with
  | nil =>
    intro k ids h
    simpa [processTxns, successIds] using h.symm
  | cons item rest ih =>
    intro k ids h
    cases item with
    | none =>
      simp only [processTxns] at h
      simpa [successIds] using ih k ids h
    | some t =>
      rcases hta : t.totalAmount with _ | ta <;>
        rcases htd : t.date with _ | d <;>
        rcases hti : t.id with _ | i <;>
        simp only [processTxns, hta, htd, hti] at h <;>
        simp only [successIds, hta, htd, hti]
      · exact ih k ids h
      · exact ih k ids h
      · exact ih k ids h
      · exact ih k ids h
      · exact ih k ids h
      · exact ih k ids h
      · exact ih k ids h
      · rcases hpd : parseJsDate d with _ | issueDate
        · rw [hpd] at h; exact absurd h (by simp)
        · rw [hpd] at h
          simp only at h
          rcases hr : (processTxns env q rest (k + 1)).2 with m | ids'
          · rw [hr] at h; exact absurd h (by simp)
          · rw [hr] at h
            simp only [Except.ok.injEq] at h
            subst h
            rw [← ih (k + 1) ids' hr]

/-- If a prefix of the transaction list processes cleanly and is followed
by a record whose fields pass the skip check but whose date does not
parse, the loop stops at that record: the calls are exactly those of the
prefix and the outcome is the thrown error, whatever follows. -/
theorem processTxns_append_error (env : EnvMap) (q : Nat → Bool)
    (bad : Txn) (post : List (Option Txn)) (ta : ℚ) (d i : String)
    (hA : bad.totalAmount = some ta) (hD : bad.date = some d)
    (hI : bad.id = some i) (hparse : parseJsDate d = none) :
    ∀ (pre : List (Option Txn)) (k : Nat) (cs : List Call)
      (ids : List String),
      processTxns env q pre k = (cs, .ok ids) →
      processTxns env q (pre ++ some bad :: post) k =
        (cs, .error invalidTimeMsg) := by
  intro pre
  induction pre with
  | nil =>
    intro k cs ids h
    simp only [processTxns] at h
    rw [show cs = [] from congrArg Prod.fst h.symm]
    simp [processTxns, hA, hD, hI, hparse]
  | cons item rest ih =>
    intro k cs ids h
    cases item with
    | none =>
      simp only [processTxns] at h ⊢
      exact ih k cs ids h
    | some t =>
      rcases hta : t.totalAmount with _ | ta' <;>
        rcases htd : t.date with _ | d' <;>
        rcases hti : t.id with _ | i' <;>
        simp only [processTxns, hta, htd, hti, List.cons_append] at h ⊢
      · exact ih k cs ids h
      · exact ih k cs ids h
      · exact ih k cs ids h
      · exact ih k cs ids h
      · exact ih k cs ids h
      · exact ih k cs ids h
      · exact ih k cs ids h
      · rcases hpd : parseJsDate d' with _ | issueDate
        · exact absurd (congrArg Prod.snd h) (by simp [hpd])
        · rcases hr : (processTxns env q rest (k + 1)).2 with m | ids'
          · rw [hr] at h
            exact absurd (congrArg Prod.snd h) (by simp [hpd])
          · have hpair : processTxns env q rest (k + 1) =
                ((processTxns env q rest (k + 1)).1, .ok ids') := by
              rw [← hr]
            rw [hpd] at h
            simp only at h
            rw [hr] at h
            simp only at h
            have hcs : Call.qoyodSubmit
                  (buildPayload env t (ta' / 100) issueDate) ::
                  (processTxns env q rest (k + 1)).1 = cs :=
              congrArg Prod.fst h
            rw [List.append_eq, ih (k + 1)
              (processTxns env q rest (k + 1)).1 ids' hpair, ← hcs]

/-- Every string fed to `String.intercalate.go` — the accumulator and
each list element — occurs inside the result. -/
theorem infix_intercalate_go (s : String) :
    ∀ (l : List String) (acc : String),
      acc.data <:+: (String.intercalate.go acc s l).data ∧
      ∀ x ∈ l, x.data <:+: (String.intercalate.go acc s l).data := by
  intro l
  induction l with
  | nil =>
    intro acc
    exact ⟨ List.infix_refl _, by simp⟩
  | cons a as ih =>
    intro acc
    have h1 := ih (acc ++ s ++ a)
    have hacc : acc.data <:+: (acc ++ s ++ a).data := by
      rw [String.data_append, String.data_append]
      exact ((acc.data.prefix_append (s.data ++ a.data)).trans
        (by rw [List.append_assoc])).isInfix
    refine ⟨hacc.trans h1.1, ?_⟩
    intro x hx
    rcases List.mem_cons.mp hx with rfl | hx'
    · have ha : x.data <:+: (acc ++ s ++ x).data := by
        rw [String.data_append]
        exact (List.suffix_append _ _).isInfix
      exact ha.trans h1.1
    · exact h1.2 x hx'

/-- A record that matches the skip condition contributes nothing: at the
head of the remaining list the loop behaves as if it were absent. -/
theorem processTxns_skip_head (env : EnvMap) (q : Nat → Bool)
    (item : Option Txn) (rest : List (Option Txn)) (k : Nat)
    (h : skipRecord item = true) :
    processTxns env q (item :: rest) k = processTxns env q rest k := by
  cases item with
  | none => simp [processTxns]
  | some t =>
    simp only [skipRecord] at h
    rcases hta : t.totalAmount with _ | ta <;>
      rcases htd : t.date with _ | d <;>
      rcases hti : t.id with _ | i <;>
      simp only [processTxns, hta, htd, hti]
    exact absurd h (by simp [hta, htd, hti])

/-- Characterization of a run whose loop completes: the response is the
success summary and the calls are the fetch, the loop's submissions, and
the mark call exactly when the export batch is non-empty. -/
theorem handler_loop_ok (method : String) (env : EnvMap) (w : World)
    (body : PemoBody) (txns : List (Option Txn)) (cs : List Call)
    (ids : List String)
    (hm : method = "GET")
    (he : requiredEnv.filter (fun key => (env key).isNone) = [])
    (hp : w.pemo = .ok body)
    (ht : body.transactions = some txns)
    (hne : txns ≠ [])
    (hloop : processTxns env w.qoyodOk txns 0 = (cs, .ok ids)) :
    handler method env w =
      (.summary ids.length ids,
       .fetchPemo :: cs ++ if ids = [] then [] else [.markExported ids]) := by
  subst hm
  have hlen : ¬ txns.length = 0 := by simpa using hne
  by_cases hempty : ids = []
  · subst hempty
    simp [handler, he, hp, ht, hlen, hloop]
  · have hpos : 0 < ids.length := List.length_pos.mpr hempty
    simp [handler, he, hp, ht, hlen, hloop, hempty, hpos]

/-! ### Claim theorems -/

/-- C8: an invocation whose request method is not GET is rejected with
"method not allowed" (status 405) and no outbound calls are made. -/
theorem non_get_method_rejected (method : String) (env : EnvMap)
    (w : World) (h : method ≠ "GET") :
    handler method env w = (.methodNotAllowed, []) ∧
    statusOf (handler method env w).1 = 405 := by
  have h1 : handler method env w = (.methodNotAllowed, []) := by
    simp [handler, h]
  exact ⟨h1, by rw [h1]; rfl⟩

/-- Witness for C8 at the concrete method "POST". -/
theorem non_get_method_rejected_witness :
    handler "POST" (fun _ => some "7")
        { pemo := .ok { transactions := none },
          qoyodOk := fun _ => true, markOk := true } =
      (.methodNotAllowed, []) ∧
    statusOf (handler "POST" (fun _ => some "7")
        { pemo := .ok { transactions := none },
          qoyodOk := fun _ => true, markOk := true }).1 = 405 :=
  non_get_method_rejected "POST" (fun _ => some "7")
    { pemo := .ok { transactions := none },
      qoyodOk := fun _ => true, markOk := true } (by decide)

/-- C2: when the Pemo fetch returns a non-ok response, the run reports a
500 failure embedding the upstream status, and the only outbound call is
the fetch itself — no Qoyod submissions, no mark call. -/
theorem source_fetch_failure_aborts_run (method : String) (env : EnvMap)
    (w : World) (status : Nat) (statusText bodyText : String)
    (hm : method = "GET")
    (he : requiredEnv.filter (fun key => (env key).isNone) = [])
    (hp : w.pemo = .fail status statusText bodyText) :
    handler method env w =
      (.serverError ("Failed to fetch Pemo transactions: " ++
        toString status ++ " " ++ statusText ++ ": " ++ bodyText),
       [.fetchPemo]) ∧
    statusOf (handler method env w).1 = 500 := by
  have h1 : handler method env w =
      (.serverError ("Failed to fetch Pemo transactions: " ++
        toString status ++ " " ++ statusText ++ ": " ++ bodyText),
       [.fetchPemo]) := by
    subst hm
    simp [handler, he, hp]
  exact ⟨h1, by rw [h1]; rfl⟩

/-- Witness for C2 at a concrete 503 upstream failure. -/
theorem source_fetch_failure_aborts_run_witness :
    handler "GET" (fun _ => some "7")
        { pemo := .fail 503 "Service Unavailable" "oops",
          qoyodOk := fun _ => true, markOk := true } =
      (.serverError ("Failed to fetch Pemo transactions: " ++
        toString 503 ++ " " ++ "Service Unavailable" ++ ": " ++ "oops"),
       [.fetchPemo]) ∧
    statusOf (handler "GET" (fun _ => some "7")
        { pemo := .fail 503 "Service Unavailable" "oops",
          qoyodOk := fun _ => true, markOk := true }).1 = 500 :=
  source_fetch_failure_aborts_run "GET" (fun _ => some "7")
    { pemo := .fail 503 "Service Unavailable" "oops",
      qoyodOk := fun _ => true, markOk := true }
    503 "Service Unavailable" "oops" rfl (by decide) rfl

/-- C7: a successful fetch with an empty transaction list yields the
200 "no transactions" response, with no Qoyod or mark calls. -/
theorem empty_transaction_list_zero_processed (method : String)
    (env : EnvMap) (w : World) (body : PemoBody)
    (hm : method = "GET")
    (he : requiredEnv.filter (fun key => (env key).isNone) = [])
    (hp : w.pemo = .ok body)
    (ht : body.transactions = some []) :
    handler method env w = (.noTransactions, [.fetchPemo]) ∧
    statusOf (handler method env w).1 = 200 := by
  have h1 : handler method env w = (.noTransactions, [.fetchPemo]) := by
    subst hm
    simp [handler, he, hp, ht]
  exact ⟨h1, by rw [h1]; rfl⟩

/-- Witness for C7 at a concrete empty `transactions` array. -/
theorem empty_transaction_list_zero_processed_witness :
    handler "GET" (fun _ => some "7")
        { pemo := .ok { transactions := some [] },
          qoyodOk := fun _ => true, markOk := true } =
      (.noTransactions, [.fetchPemo]) ∧
    statusOf (handler "GET" (fun _ => some "7")
        { pemo := .ok { transactions := some [] },
          qoyodOk := fun _ => true, markOk := true }).1 = 200 :=
  empty_transaction_list_zero_processed "GET" (fun _ => some "7")
    { pemo := .ok { transactions := some [] },
      qoyodOk := fun _ => true, markOk := true }
    { transactions := some [] } rfl (by decide) rfl rfl

/-- C10: when the fetched body's `transactions` property is absent or not
an array, the run treats it as an empty list and returns the 200
"no transactions" response rather than an error. -/
theorem non_array_transactions_treated_empty (method : String)
    (env : EnvMap) (w : World) (body : PemoBody)
    (hm : method = "GET")
    (he : requiredEnv.filter (fun key => (env key).isNone) = [])
    (hp : w.pemo = .ok body)
    (ht : body.transactions = none) :
    handler method env w = (.noTransactions, [.fetchPemo]) ∧
    statusOf (handler method env w).1 = 200 := by
  have h1 : handler method env w = (.noTransactions, [.fetchPemo]) := by
    subst hm
    simp [handler, he, hp, ht]
  exact ⟨h1, by rw [h1]; rfl⟩

/-- Witness for C10 at a body with no `transactions` array. -/
theorem non_array_transactions_treated_empty_witness :
    handler "GET" (fun _ => some "7")
        { pemo := .ok { transactions := none },
          qoyodOk := fun _ => true, markOk := true } =
      (.noTransactions, [.fetchPemo]) ∧
    statusOf (handler "GET" (fun _ => some "7")
        { pemo := .ok { transactions := none },
          qoyodOk := fun _ => true, markOk := true }).1 = 200 :=
  non_array_transactions_treated_empty "GET" (fun _ => some "7")
    { pemo := .ok { transactions := none },
      qoyodOk := fun _ => true, markOk := true }
    { transactions := none } rfl (by decide) rfl rfl

/-- C3: when at least one required configuration value is absent, the
invocation is rejected with a single combined message in which every
missing variable name occurs, and no outbound calls are made. -/
theorem missing_config_rejected_named (method : String) (env : EnvMap)
    (w : World) (hm : method = "GET")
    (hne : requiredEnv.filter (fun key => (env key).isNone) ≠ []) :
    handler method env w =
      (.missingEnv ("Missing required environment variables: " ++
        String.intercalate ", "
          (requiredEnv.filter (fun key => (env key).isNone))), []) ∧
    ∀ k ∈ requiredEnv.filter (fun key => (env key).isNone),
      k.data <:+:
        ("Missing required environment variables: " ++
          String.intercalate ", "
            (requiredEnv.filter (fun key => (env key).isNone))).data := by
  subst hm
  have hlen : 0 < (requiredEnv.filter (fun key => (env key).isNone)).length :=
    List.length_pos.mpr hne
  constructor
  · simp [handler, hlen]
  · intro k hk
    have hJ : k.data <:+: (String.intercalate ", "
        (requiredEnv.filter (fun key => (env key).isNone))).data := by
      rcases hcase : requiredEnv.filter (fun key => (env key).isNone) with
        _ | ⟨m, ms⟩
      · exact absurd hcase hne
      · rw [hcase] at hk
        have hgo := infix_intercalate_go ", " ms m
        rcases List.mem_cons.mp hk with rfl | hk'
        · exact hgo.1
        · exact hgo.2 k hk'
    have hP : (String.intercalate ", "
        (requiredEnv.filter (fun key => (env key).isNone))).data <:+
        ("Missing required environment variables: " ++
          String.intercalate ", "
            (requiredEnv.filter (fun key => (env key).isNone))).data := by
      rw [String.data_append]
      exact List.suffix_append _ _
    exact hJ.trans hP.isInfix

/-- Witness for C3: with `QOYOD_API_KEY` and `QOYOD_PRODUCT_ID` absent,
both names occur in the combined message and no call is made. -/
theorem missing_config_rejected_named_witness :
    handler "GET" envMissingTwo
        { pemo := .ok { transactions := none },
          qoyodOk := fun _ => true, markOk := true } =
      (.missingEnv ("Missing required environment variables: " ++
        String.intercalate ", "
          (requiredEnv.filter (fun key => (envMissingTwo key).isNone))),
       []) ∧
    ∀ k ∈ requiredEnv.filter (fun key => (envMissingTwo key).isNone),
      k.data <:+:
        ("Missing required environment variables: " ++
          String.intercalate ", "
            (requiredEnv.filter
              (fun key => (envMissingTwo key).isNone))).data :=
  missing_config_rejected_named "GET" envMissingTwo
    { pemo := .ok { transactions := none },
      qoyodOk := fun _ => true, markOk := true }
    rfl (by decide)

/-- C4: a candidate record failing the field check (no numeric amount, no
date, or no id) is skipped wherever it occurs: no submission is sent for
it, it joins no export batch, and the rest of the loop is untouched. -/
theorem malformed_record_skipped (env : EnvMap) (q : Nat → Bool)
    (pre : List (Option Txn)) (item : Option Txn)
    (rest : List (Option Txn)) (k : Nat)
    (h : skipRecord item = true) :
    processTxns env q (pre ++ item :: rest) k =
      processTxns env q (pre ++ rest) k := by
  induction pre generalizing k with
  | nil => exact processTxns_skip_head env q item rest k h
  | cons it pre' ih =>
    cases it with
    | none =>
      simp only [List.cons_append, processTxns]
      exact ih k
    | some t =>
      rcases hta : t.totalAmount with _ | ta <;>
        rcases htd : t.date with _ | d <;>
        rcases hti : t.id with _ | i <;>
        simp only [List.cons_append, processTxns, hta, htd, hti]
      · exact ih k
      · exact ih k
      · exact ih k
      · exact ih k
      · exact ih k
      · exact ih k
      · exact ih k
      · rcases parseJsDate d with _ | issueDate
        · rfl
        · simp only [List.append_eq]
          rw [ih (k + 1)]

/-- Witness for C4: a record with a missing id between two valid records
changes nothing. -/
theorem malformed_record_skipped_witness :
    processTxns okEnv (fun _ => true)
        ([some txnA] ++ (some ⟨none, some 50, some "2024-01-04", none⟩) ::
          [some txnC]) 0 =
      processTxns okEnv (fun _ => true) ([some txnA] ++ [some txnC]) 0 :=
  malformed_record_skipped okEnv (fun _ => true) [some txnA]
    (some ⟨none, some 50, some "2024-01-04", none⟩) [some txnC] 0
    (by decide)

/-- C5: the spec's conversion example: a transaction with `totalAmount`
4550 and date `2024-01-15T10:30:00Z` yields an entry whose single line
has unit price 45.50 and whose issue date is `2024-01-15`. -/
theorem amount_and_date_conversion (env : EnvMap) :
    parseJsDate "2024-01-15T10:30:00Z" = some "2024-01-15" ∧
    (4550 : ℚ) / 100 = 45.5 ∧
    (processTxns env (fun _ => true) [some sampleTxn] 0).1 =
      [Call.qoyodSubmit (buildPayload env sampleTxn 45.5 "2024-01-15")] ∧
    (buildPayload env sampleTxn 45.5 "2024-01-15").invoice.issue_date =
      "2024-01-15" ∧
    (buildPayload env sampleTxn 45.5 "2024-01-15").invoice.line_items.map
      LineItem.unit_price = [45.5] := by
  have hpd : parseJsDate "2024-01-15T10:30:00Z" = some "2024-01-15" := by
    decide
  have hamt : (4550 : ℚ) / 100 = 45.5 := by norm_num
  refine ⟨hpd, hamt, ?_, rfl, rfl⟩
  simp [processTxns, sampleTxn, hpd, hamt]

/-- Witness for C5 at the all-set concrete environment. -/
theorem amount_and_date_conversion_witness :
    parseJsDate "2024-01-15T10:30:00Z" = some "2024-01-15" ∧
    (4550 : ℚ) / 100 = 45.5 ∧
    (processTxns okEnv (fun _ => true) [some sampleTxn] 0).1 =
      [Call.qoyodSubmit (buildPayload okEnv sampleTxn 45.5 "2024-01-15")] ∧
    (buildPayload okEnv sampleTxn 45.5 "2024-01-15").invoice.issue_date =
      "2024-01-15" ∧
    (buildPayload okEnv sampleTxn 45.5 "2024-01-15").invoice.line_items.map
      LineItem.unit_price = [45.5] :=
  amount_and_date_conversion okEnv

/-- C1: in a run whose loop completes, the ids handed to the
mark-as-exported call are exactly the ids of the transactions whose Qoyod
submission succeeded, in source order; a failed submission only drops its
own id. -/
theorem export_batch_matches_success_set (method : String) (env : EnvMap)
    (w : World) (body : PemoBody) (txns : List (Option Txn))
    (cs : List Call) (ids : List String)
    (hm : method = "GET")
    (he : requiredEnv.filter (fun key => (env key).isNone) = [])
    (hp : w.pemo = .ok body)
    (ht : body.transactions = some txns)
    (hne : txns ≠ [])
    (hloop : processTxns env w.qoyodOk txns 0 = (cs, .ok ids)) :
    ids = successIds w.qoyodOk txns 0 ∧
    markBatches (handler method env w).2 =
      if ids = [] then [] else [ids] := by
  have hh := handler_loop_ok method env w body txns cs ids hm he hp ht hne
    hloop
  have hids := processTxns_ok_ids env w.qoyodOk txns 0 ids (by rw [hloop])
  have hnm : markBatches cs = [] := by
    have h0 := processTxns_no_mark env w.qoyodOk txns 0
    rw [hloop] at h0
    exact h0
  refine ⟨hids, ?_⟩
  rw [hh]
  simp only [markBatches] at hnm
  by_cases hempty : ids = [] <;>
    simp [hempty, markBatches, List.filterMap_append, hnm]

/-- Witness for C1: three valid transactions, second submission fails;
the mark batch is exactly ["a", "c"]. -/
theorem export_batch_matches_success_set_witness :
    (["a", "c"] : List String) =
      successIds worldABC.qoyodOk [some txnA, some txnB, some txnC] 0 ∧
    markBatches (handler "GET" okEnv worldABC).2 =
      if (["a", "c"] : List String) = [] then [] else [["a", "c"]] :=
  export_batch_matches_success_set "GET" okEnv worldABC
    { transactions := some [some txnA, some txnB, some txnC] }
    [some txnA, some txnB, some txnC]
    (processTxns okEnv failSecond [some txnA, some txnB, some txnC] 0).1
    ["a", "c"] rfl (by decide) rfl rfl (by decide) rfl

/-- C6: after the loop, the success summary is reported and a single
mark-as-exported call is issued iff the batch is non-empty; the mark
call's own success or failure leaves the reported summary unchanged. -/
theorem mark_call_once_best_effort (method : String) (env : EnvMap)
    (w : World) (body : PemoBody) (txns : List (Option Txn))
    (cs : List Call) (ids : List String)
    (hm : method = "GET")
    (he : requiredEnv.filter (fun key => (env key).isNone) = [])
    (hp : w.pemo = .ok body)
    (ht : body.transactions = some txns)
    (hne : txns ≠ [])
    (hloop : processTxns env w.qoyodOk txns 0 = (cs, .ok ids)) :
    (handler method env w).1 = .summary ids.length ids ∧
    markBatches (handler method env w).2 =
      (if ids = [] then [] else [ids]) ∧
    (handler method env
      { pemo := w.pemo, qoyodOk := w.qoyodOk, markOk := true }).1 =
      .summary ids.length ids ∧
    (handler method env
      { pemo := w.pemo, qoyodOk := w.qoyodOk, markOk := false }).1 =
      .summary ids.length ids := by
  have hh := handler_loop_ok method env w body txns cs ids hm he hp ht hne
    hloop
  have hht := handler_loop_ok method env ⟨w.pemo, w.qoyodOk, true⟩ body txns
    cs ids hm he hp ht hne hloop
  have hhf := handler_loop_ok method env ⟨w.pemo, w.qoyodOk, false⟩ body txns
    cs ids hm he hp ht hne hloop
  have hnm : markBatches cs = [] := by
    have h0 := processTxns_no_mark env w.qoyodOk txns 0
    rw [hloop] at h0
    exact h0
  refine ⟨by rw [hh], ?_, by rw [hht], by rw [hhf]⟩
  rw [hh]
  simp only [markBatches] at hnm
  by_cases hempty : ids = [] <;>
    simp [hempty, markBatches, List.filterMap_append, hnm]

/-- Witness for C6: with batch ["a", "c"], one mark call is made and the
summary is the same whether the mark call succeeds or fails. -/
theorem mark_call_once_best_effort_witness :
    (handler "GET" okEnv worldABC).1 = .summary 2 ["a", "c"] ∧
    markBatches (handler "GET" okEnv worldABC).2 =
      (if (["a", "c"] : List String) = [] then [] else [["a", "c"]]) ∧
    (handler "GET" okEnv
      { pemo := worldABC.pemo, qoyodOk := worldABC.qoyodOk,
        markOk := true }).1 = .summary 2 ["a", "c"] ∧
    (handler "GET" okEnv
      { pemo := worldABC.pemo, qoyodOk := worldABC.qoyodOk,
        markOk := false }).1 = .summary 2 ["a", "c"] :=
  mark_call_once_best_effort "GET" okEnv worldABC
    { transactions := some [some txnA, some txnB, some txnC] }
    [some txnA, some txnB, some txnC]
    (processTxns okEnv failSecond [some txnA, some txnB, some txnC] 0).1
    ["a", "c"] rfl (by decide) rfl rfl (by decide) rfl

/-- C9: a transaction with id, numeric amount and a present but
unparseable date aborts the whole run with a generic 500: later
transactions are not processed and no mark call happens, even for
transactions already submitted successfully. -/
theorem invalid_date_aborts_run (method : String) (env : EnvMap)
    (w : World) (body : PemoBody) (pre post : List (Option Txn))
    (bad : Txn) (ta : ℚ) (d i : String) (cs : List Call)
    (ids : List String)
    (hm : method = "GET")
    (he : requiredEnv.filter (fun key => (env key).isNone) = [])
    (hp : w.pemo = .ok body)
    (ht : body.transactions = some (pre ++ some bad :: post))
    (hA : bad.totalAmount = some ta) (hD : bad.date = some d)
    (hI : bad.id = some i) (hparse : parseJsDate d = none)
    (hpre : processTxns env w.qoyodOk pre 0 = (cs, .ok ids)) :
    handler method env w = (.serverError invalidTimeMsg, .fetchPemo :: cs) ∧
    statusOf (handler method env w).1 = 500 ∧
    markBatches (handler method env w).2 = [] := by
  have herr := processTxns_append_error env w.qoyodOk bad post ta d i
    hA hD hI hparse pre 0 cs ids hpre
  have hnm : markBatches cs = [] := by
    have h0 := processTxns_no_mark env w.qoyodOk pre 0
    rw [hpre] at h0
    exact h0
  have h1 : handler method env w =
      (.serverError invalidTimeMsg, .fetchPemo :: cs) := by
    subst hm
    have hlen : ¬ (pre ++ some bad :: post).length = 0 := by simp
    simp [handler, he, hp, ht, hlen, herr]
  refine ⟨h1, by rw [h1]; rfl, ?_⟩
  rw [h1]
  simp only [markBatches] at hnm ⊢
  simpa [List.filterMap_cons] using hnm

/-- Witness for C9: a good transaction, then one dated "not-a-date", then
another good one: the run returns the generic 500 after the first
submission only, with no mark call. -/
theorem invalid_date_aborts_run_witness :
    handler "GET" okEnv worldBadDate =
      (.serverError invalidTimeMsg,
       .fetchPemo :: (processTxns okEnv (fun _ => true) [some txnA] 0).1) ∧
    statusOf (handler "GET" okEnv worldBadDate).1 = 500 ∧
    markBatches (handler "GET" okEnv worldBadDate).2 = [] :=
  invalid_date_aborts_run "GET" okEnv worldBadDate
    { transactions := some [some txnA, some badTxn, some txnC] }
    [some txnA] [some txnC] badTxn 100 "not-a-date" "bad"
    (processTxns okEnv (fun _ => true) [some txnA] 0).1 ["a"]
    rfl (by decide) rfl rfl rfl rfl rfl (by decide) rfl

end SyncInvoices
